import Mathlib

/-!
Verification development for the Ghidrall lifter (`src/ghidrall/src/lifter.py`).

The definitions below are a shallow embedding of the parts of the lifter the
claims are about: the varnode resolver (`fetch_input` / `fetch_store_output`),
integer-width reconciliation (`fixConflictingIntType`), the relevant arms of
`Function.lift_function` (INT_ADD, INT_XOR, INT_OR, INT_LESSEQUAL,
INT_SLESSEQUAL, CBRANCH, CALL, RETURN), label formatting (`format_label`),
the instrumentation protocol (`Function.instrument`), and return-type
synthesis (`Lifter.create_function_signatures`).

Python strings are modelled through their character lists; Python `dict`s are
association lists where an update replaces the first binding; Python
exceptions are modelled with `Option` (a `none` result is a raised
exception).  llvmlite IR values are modelled structurally: constants carry
their payload, instruction results carry a fresh id allocated by the builder,
and the builder records the emitted instruction stream in order.
-/

namespace Ghidrall

/-! ## String utilities (structural, on `List Char`) -/

/-- Does the character list `s` start with `p`? -/
def startsWithL : List Char → List Char → Bool
  | [], _ => true
  | _ :: _, [] => false
  | p :: ps, c :: cs => p = c && startsWithL ps cs

/-- Naive substring search on character lists; Python's `sub in s`. -/
def isSubL (p : List Char) : List Char → Bool
  | [] => p.isEmpty
  | c :: cs => startsWithL p (c :: cs) || isSubL p cs

/-- Python `sub in s` for strings. -/
def strContains (s sub : String) : Bool := isSubL sub.data s.data

/-- Characters strictly before the first occurrence of `sep`; the head of
Python's `s.split(sep)` for a one-character separator. -/
def takeBeforeL (sep : Char) : List Char → List Char
  | [] => []
  | c :: cs => if c = sep then [] else c :: takeBeforeL sep cs

/-- Python `s.split(sep)[0]` for a one-character separator. -/
def splitHead (s : String) (sep : Char) : String := ⟨takeBeforeL sep s.data⟩

/-- Python `s[:n]` on the character level. -/
def strTake (s : String) (n : Nat) : String := ⟨s.data.take n⟩

/-- Python `s[n:]` on the character level. -/
def strDrop (s : String) (n : Nat) : String := ⟨s.data.drop n⟩

/-- Length in characters. -/
def strLen (s : String) : Nat := s.data.length

/-- Left-pad with `'0'` to `n` characters (no sign handling). -/
def padZeroL (n : Nat) (l : List Char) : List Char :=
  List.replicate (n - l.length) '0' ++ l

/-- Python `str.zfill`: left-pad with zeros to width `n`, keeping a leading
sign character in front of the padding. -/
def zfill (s : String) (n : Nat) : String :=
  match s.data with
  | c :: cs =>
    if c = '-' ∨ c = '+' then ⟨c :: padZeroL (n - 1) cs⟩
    else ⟨padZeroL n s.data⟩
  | [] => ⟨padZeroL n []⟩

/-- ASCII lower-casing of one character. -/
def lowerChar (c : Char) : Char :=
  if 'A' ≤ c ∧ c ≤ 'Z' then Char.ofNat (c.toNat + 32) else c

/-- ASCII lower-casing of a string. -/
def lowerStr (s : String) : String := ⟨s.data.map lowerChar⟩

/-- Decimal digit value of a character, if it is one. -/
def decDigitVal (c : Char) : Option Nat :=
  if '0' ≤ c ∧ c ≤ '9' then some (c.toNat - '0'.toNat) else none

/-- Hexadecimal digit value of a character, if it is one (both cases). -/
def hexDigitVal (c : Char) : Option Nat :=
  if '0' ≤ c ∧ c ≤ '9' then some (c.toNat - '0'.toNat)
  else if 'a' ≤ c ∧ c ≤ 'f' then some (c.toNat - 'a'.toNat + 10)
  else if 'A' ≤ c ∧ c ≤ 'F' then some (c.toNat - 'A'.toNat + 10)
  else none

/-- Fold a digit list in base `b`, failing on a non-digit. -/
def foldDigits (dv : Char → Option Nat) (b : Nat) : List Char → Option Nat → Option Nat
  | [], acc => acc
  | c :: cs, acc =>
    match acc, dv c with
    | some n, some d => foldDigits dv b cs (some (n * b + d))
    | _, _ => none

/-- Parse a nonempty unsigned digit string in base `b`. -/
def parseDigits (dv : Char → Option Nat) (b : Nat) (l : List Char) : Option Nat :=
  match l with
  | [] => none
  | _ => foldDigits dv b l (some 0)

/-- Python `int(s)`: optional sign then decimal digits. -/
def pyIntDec (s : String) : Option Int :=
  match s.data with
  | '-' :: rest => (parseDigits decDigitVal 10 rest).map (fun n => -(n : Int))
  | '+' :: rest => (parseDigits decDigitVal 10 rest).map (fun n => (n : Int))
  | l => (parseDigits decDigitVal 10 l).map (fun n => (n : Int))

/-- Python `int(s, 16)` restricted to the shapes the lifter feeds it: an
optional `0x` prefix followed by hex digits. -/
def pyIntHex (s : String) : Option Int :=
  let l := if startsWithL ['0', 'x'] s.data then s.data.drop 2 else s.data
  (parseDigits hexDigitVal 16 l).map (fun n => (n : Int))

/-- The suffix of `s` from the first occurrence of `"0x"`; Python
`s[s.index("0x"):]` (only used when the occurrence exists). -/
def fromFirst0x : List Char → List Char
  | [] => []
  | c :: cs => if startsWithL ['0', 'x'] (c :: cs) then c :: cs else fromFirst0x cs

/-- One lowercase hex digit. -/
def hexChar (n : Nat) : Char :=
  if n < 10 then Char.ofNat ('0'.toNat + n) else Char.ofNat ('a'.toNat + (n - 10))

/-- Hex digit expansion of `n` (most significant first), with fuel. -/
def hexDigitsAux : Nat → Nat → List Char
  | 0, _ => []
  | _ + 1, 0 => []
  | fuel + 1, n => hexDigitsAux fuel (n / 16) ++ [hexChar (n % 16)]

/-- Python `hex(n)` for a natural number: `0x` plus lowercase digits. -/
def pyHex (n : Nat) : String :=
  if n = 0 then "0x0" else ⟨('0' :: 'x' :: hexDigitsAux (n + 1) n)⟩

/-! ## Association lists standing in for Python dicts -/

/-- First-match lookup, Python `d[k]` / `k in d`. -/
def alookup {α : Type} : List (String × α) → String → Option α
  | [], _ => none
  | (k, v) :: rest, key => if k = key then some v else alookup rest key

/-- Python `d[k] = v`: replace the first binding of `k`, or append. -/
def aupdate {α : Type} : List (String × α) → String → α → List (String × α)
  | [], key, v => [(key, v)]
  | (k, w) :: rest, key, v =>
    if k = key then (k, v) :: rest else (k, w) :: aupdate rest key v

/-! ## The IR model -/

/-- llvmlite types used by the lifter. -/
inductive IRType where
  | int (width : Nat)
  | void
  | pointer (pointee : IRType)
  deriving DecidableEq, Repr

/-- The `width` attribute of an llvmlite `IntType`. -/
def IRType.width : IRType → Nat
  | .int w => w
  | _ => 0

/-- Is this an `ir.IntType`? -/
def IRType.isInt : IRType → Bool
  | .int _ => true
  | _ => false

/-- An llvmlite value as the lifter sees it: a constant with payload, a named
function parameter, or the result of an emitted instruction (identified by
the id the builder allocated for it). -/
inductive IRValue where
  | const (ty : IRType) (val : Int)
  | param (name : String) (ty : IRType)
  | slot (name : String) (ty : IRType)
  | instr (id : Nat) (ty : IRType)
  deriving DecidableEq, Repr

/-- The `type` attribute of a value. -/
def IRValue.ty : IRValue → IRType
  | .const t _ => t
  | .param _ t => t
  | .slot _ t => t
  | .instr _ t => t

/-- Assignment to a value's `type` attribute (`lhs.type = ir.IntType(w)`). -/
def IRValue.retype : IRValue → IRType → IRValue
  | .const _ v, t => .const t v
  | .param n _, t => .param n t
  | .slot n _, t => .slot n t
  | .instr i _, t => .instr i t

/-- icmp predicates used by the comparison arms. -/
inductive Pred where
  | eq | ne | ult | ule | slt | sle
  deriving DecidableEq, Repr

/-- The instructions the embedded arms can emit, recorded with their operands
in source order and the result value the builder returned. -/
inductive Instr where
  | add (lhs rhs res : IRValue)
  | xorI (lhs rhs res : IRValue)
  | orI (lhs rhs res : IRValue)
  | icmp (p : Pred) (lhs rhs res : IRValue)
  | zext (v : IRValue) (t : IRType) (res : IRValue)
  | sext (v : IRValue) (t : IRType) (res : IRValue)
  | truncI (v : IRValue) (t : IRType) (res : IRValue)
  | load (src : IRValue) (res : IRValue)
  | store (v : IRValue) (dst : IRValue) (res : IRValue)
  | bitcast (v : IRValue) (t : IRType) (res : IRValue)
  | gep (base : IRValue) (offWidth : Nat) (off : Int) (res : IRValue)
  | cbranch (cond : IRValue) (opTrue opFalse : String)
  | call (callee : String) (args : List IRValue) (res : IRValue)
  | ret (v : IRValue)
  | retVoid
  | br (target : String)
  deriving DecidableEq, Repr

/-- Builder state: fresh-id counter plus the emitted instruction stream. -/
structure Builder where
  nextId : Nat
  instrs : List Instr
  deriving DecidableEq, Repr

/-- Emit one instruction whose result is a fresh value of type `t`. -/
def Builder.emit (b : Builder) (t : IRType) (mk : IRValue → Instr) : IRValue × Builder :=
  let v := IRValue.instr b.nextId t
  (v, ⟨b.nextId + 1, b.instrs ++ [mk v]⟩)

/-- Emit an instruction with no interesting result value. -/
def Builder.emitUnit (b : Builder) (i : Instr) : Builder :=
  ⟨b.nextId, b.instrs ++ [i]⟩

/-! ## The artifact data model needed by the resolver -/

/-- One varnode descriptor: the `<symbol>` text, the `<size>` text in bytes,
and the optional `offset` / `size` attributes on the symbol element
(`arg.find("symbol").get("offset")` / `.get("size")`). -/
structure Varnode where
  symbol : String
  sizeBytes : Nat
  offsetAttr : Option Nat
  offsetSizeAttr : Option Nat
  deriving DecidableEq, Repr

/-- Per-function read-only context for the resolver: IR parameter names with
their bit widths (`ir_func.args`), the module global table (name to bit
width of the global integer), and the local table (name to bit width of the
slot's pointee) built by `recover_locals` — it contains the declared locals
and one slot per observed `register0x*` varnode.  The source's
`self.local_sizes` dict is initialized empty and never written, so its
membership test in `fetch_input` is always false and it needs no field
here. -/
structure FnCtx where
  params : List (String × Nat)
  globalVars : List (String × Nat)
  localVars : List (String × Nat)
  deriving Repr

/-- Temporaries table: varnode name to the most recently produced value. -/
abbrev Temps := List (String × IRValue)

/-- The symbol after the `var` rewrite at the top of both resolver functions:
`if "var" in symbol: symbol = symbol.split('.')[0]`. -/
def strippedSymbol (raw : String) : String :=
  if strContains raw "var" then splitHead raw '.' else raw

/-- The requested width in bits computed at the top of `fetch_input`:
1 for `bVar*`, otherwise 8 times the byte size unless the byte size is
exactly 1, which is kept as width 1 (a quirk of the source). -/
def requestedWidth (symbol : String) (sizeBytes : Nat) : Nat :=
  if strContains symbol "bVar" then 1
  else if sizeBytes ≠ 1 then sizeBytes * 8 else sizeBytes

/-- The `try`-block of the constant fallback at the end of `fetch_input`:
take the part before the first `U` if any, then parse from the first `0x`
as hex if present, else parse as a decimal integer.  `none` is the raised
`ValueError` that the `except` arm turns into a zero constant. -/
def pyParseSymbolInt (symbol : String) : Option Int :=
  let s := if strContains symbol "U" then splitHead symbol 'U' else symbol
  if strContains s "0x" then pyIntHex ⟨fromFirst0x s.data⟩
  else pyIntDec s

/-- `Function.fetch_input` (lifter.py lines 746-809).  The outer `Option` is
`none` exactly when the source raises (the `argc` / `argv` guard); the inner
`Option IRValue` is the Python return value, which the source never leaves
implicitly `None`.  Each branch mirrors one resolver stage in source
order: parameter match, global load, local load (with the byte-offset
path), temporaries, boolean literals, constant parse. -/
def fetch_input (ctx : FnCtx) (b : Builder) (arg : Varnode) (temps : Temps) :
    Option (Option IRValue × Builder) :=
  let symbol := strippedSymbol arg.symbol
  let size := requestedWidth symbol arg.sizeBytes
  if strContains symbol "argv" then none
  else if strContains symbol "argc" then none
  else
    match (if strContains symbol "arg" then (ctx.params.find? (fun p => p.1 = symbol)) else none) with
    | some p => some (some (IRValue.param p.1 (IRType.int p.2)), b)
    | none =>
      match alookup ctx.globalVars symbol with
      | some w =>
        let g := IRValue.slot symbol (IRType.pointer (IRType.int w))
        let (v, b1) := b.emit (IRType.int w) (fun r => Instr.load g r)
        some (some v, b1)
      | none =>
        match alookup ctx.localVars symbol with
        | some w =>
          -- the `symbol in self.local_sizes` branch is dead (dict never filled)
          let slotv := IRValue.slot symbol (IRType.pointer (IRType.int w))
          match arg.offsetAttr, arg.offsetSizeAttr with
          | some off, some osz =>
            let offsetSize := 8 * osz
            let (outp, b1) := b.emit (IRType.pointer (IRType.int w))
              (fun r => Instr.gep slotv offsetSize (8 * off) r)
            let (fin, b2) := b1.emit (IRType.int w) (fun r => Instr.load outp r)
            if IRType.int w ≠ IRType.int offsetSize then
              let (t, b3) := b2.emit (IRType.int offsetSize) (fun r => Instr.truncI fin (IRType.int offsetSize) r)
              some (some t, b3)
            else some (some fin, b2)
          | _, _ =>
            let (fin, b1) := b.emit (IRType.int w) (fun r => Instr.load slotv r)
            if IRType.int w ≠ IRType.int size then
              let (t, b2) := b1.emit (IRType.int size) (fun r => Instr.truncI fin (IRType.int size) r)
              some (some t, b2)
            else some (some fin, b1)
        | none =>
          match alookup temps symbol with
          | some tv =>
            if tv.ty = IRType.void then some (some (IRValue.const (IRType.int 1) 0), b)
            else if tv.ty ≠ IRType.int size ∧ tv.ty ≠ IRType.int 1 then
              let (t, b1) := b.emit (IRType.int size) (fun r => Instr.truncI tv (IRType.int size) r)
              some (some t, b1)
            else some (some tv, b)
          | none =>
            if strContains symbol "false" then some (some (IRValue.const (IRType.int 1) 0), b)
            else if strContains symbol "true" then some (some (IRValue.const (IRType.int 1) 1), b)
            else
              match pyParseSymbolInt symbol with
              | some v => some (some (IRValue.const (IRType.int size) v), b)
              | none => some (some (IRValue.const (IRType.int size) 0), b)

/-- `Function.fetch_store_output` (lifter.py lines 811-847).  Locals take the
offset/bitcast/store path (nothing is stored for a void result, but the gep
is still emitted first); globals get a direct store; `register*` and
`unique*` names update the temporaries table; parameter targets and anything
else are silently ignored. -/
def fetch_store_output (ctx : FnCtx) (b : Builder) (arg : Varnode) (result : IRValue)
    (temps : Temps) : Builder × Temps :=
  let symbol := strippedSymbol arg.symbol
  match alookup ctx.localVars symbol with
  | some w =>
    let slotv := IRValue.slot symbol (IRType.pointer (IRType.int w))
    let (outp, b1) :=
      match arg.offsetAttr, arg.offsetSizeAttr with
      | some off, some osz =>
        b.emit (IRType.pointer (IRType.int w))
          (fun r => Instr.gep slotv (8 * osz) (8 * off) r)
      | _, _ => (slotv, b)
    if result.ty ≠ IRType.void then
      let (outp2, b2) :=
        if outp.ty ≠ IRType.pointer result.ty then
          b1.emit (IRType.pointer result.ty)
            (fun r => Instr.bitcast outp (IRType.pointer result.ty) r)
        else (outp, b1)
      let (_, b3) := b2.emit IRType.void (fun r => Instr.store result outp2 r)
      (b3, temps)
    else (b1, temps)
  | none =>
    match alookup ctx.globalVars symbol with
    | some w =>
      let g := IRValue.slot symbol (IRType.pointer (IRType.int w))
      let (_, b1) := b.emit IRType.void (fun r => Instr.store result g r)
      (b1, temps)
    | none =>
      if strContains symbol "register" then (b, aupdate temps symbol result)
      else if strContains symbol "unique" then (b, aupdate temps symbol result)
      else (b, temps)

/-- `Function.fixConflictingIntType` (lifter.py lines 190-198): the narrower
operand's `type` attribute is overwritten with the wider operand's
`IntType`; no instruction is emitted. -/
def fixConflictingIntType (lhs rhs : IRValue) : IRValue × IRValue :=
  let widthLhs := lhs.ty.width
  let widthRhs := rhs.ty.width
  if widthLhs > widthRhs then (lhs, rhs.retype (IRType.int widthLhs))
  else (lhs.retype (IRType.int widthRhs), rhs)

/-- The width-reconciliation guard shared by the binary arms:
`lhs.type != rhs.type and isinstance(lhs.type, IntType) and
isinstance(rhs.type, IntType)`. -/
def needsFix (lhs rhs : IRValue) : Bool :=
  lhs.ty ≠ rhs.ty && lhs.ty.isInt && rhs.ty.isInt

/-- Apply the reconciliation exactly when the guard holds. -/
def reconcile (lhs rhs : IRValue) : IRValue × IRValue :=
  if needsFix lhs rhs then fixConflictingIntType lhs rhs else (lhs, rhs)

/-! ## Translator arms (`Function.lift_function`) -/

/-- The INT_ADD arm (lifter.py lines 386-397), starting from the two fetched
operand values: reconcile widths when the guard holds, emit `add`
(llvmlite types the result after the first operand), store the result
through the resolver. -/
def liftIntAdd (ctx : FnCtx) (b : Builder) (lhs rhs : IRValue) (target : Varnode)
    (temps : Temps) : Builder × Temps :=
  let (l, r) := reconcile lhs rhs
  let (res, b1) := b.emit l.ty (fun v => Instr.add l r v)
  fetch_store_output ctx b1 target res temps

/-- The INT_XOR arm (lifter.py lines 426-435): unlike the other binary
integer arms it performs no width reconciliation, so `builder.xor` receives
the fetched operands as they are.  llvmlite's binary-op wrapper checks
`lhs.type != rhs.type` and raises `ValueError` on a mismatch (modelled
`none`): with operands of different types the arm aborts the lift without
emitting anything; only on agreeing types is the `xor` emitted and its
result stored through the resolver. -/
def liftIntXor (ctx : FnCtx) (b : Builder) (input0 input1 : IRValue) (target : Varnode)
    (temps : Temps) : Option (Builder × Temps) :=
  if input0.ty ≠ input1.ty then none
  else
    let (res, b1) := b.emit input0.ty (fun v => Instr.xorI input0 input1 v)
    some (fetch_store_output ctx b1 target res temps)

/-- The INT_OR arm (lifter.py lines 448-459): it fetches `input0` / `input1`
but its reconciliation guard and call read the stale `lhs` / `rhs` left over
from a previously executed arm (a Python scoping accident); the reconciled
pair is discarded and `builder.or_` gets the unreconciled
`input0` / `input1`.  When no earlier arm bound `lhs` / `rhs`, the lookup
raises `NameError` (the first `none`); and llvmlite's binary-op wrapper
raises `ValueError` when the operand types of the `or` differ (the second
`none`), so a mismatched pair aborts the lift without emitting. -/
def liftIntOr (ctx : FnCtx) (b : Builder) (stale : Option (IRValue × IRValue))
    (input0 input1 : IRValue) (target : Varnode) (temps : Temps) :
    Option (Builder × Temps) :=
  match stale with
  | none => none
  | some (l, r) =>
    let _ := reconcile l r
    if input0.ty ≠ input1.ty then none
    else
      let (res, b1) := b.emit input0.ty (fun v => Instr.orI input0 input1 v)
      some (fetch_store_output ctx b1 target res temps)

/-- The INT_LESSEQUAL arm (lifter.py lines 358-367): reconcile, emit the
unsigned `<=` comparison — and, unlike every sibling comparison arm, never
call `fetch_store_output`; the result is discarded and the temporaries
table is left untouched. -/
def liftIntLessEqual (b : Builder) (lhs rhs : IRValue) (temps : Temps) :
    Builder × Temps :=
  let (l, r) := reconcile lhs rhs
  let (_, b1) := b.emit (IRType.int 1) (fun v => Instr.icmp Pred.ule l r v)
  (b1, temps)

/-- The INT_SLESSEQUAL arm (lifter.py lines 334-345): reconcile, emit the
signed `<=` comparison, and store the result through the resolver. -/
def liftIntSLessEqual (ctx : FnCtx) (b : Builder) (lhs rhs : IRValue) (target : Varnode)
    (temps : Temps) : Builder × Temps :=
  let (l, r) := reconcile lhs rhs
  let (res, b1) := b.emit (IRType.int 1) (fun v => Instr.icmp Pred.sle l r v)
  fetch_store_output ctx b1 target res temps

/-! ## Label formatting and the CBRANCH arm -/

/-- `Function.format_label` (lifter.py lines 711-717): strip a leading
literal `0x`, then `'0x' + label.zfill(8)`.  The digit characters are kept
exactly as given — the function performs no case conversion. -/
def format_label (label : String) : String :=
  let l := if strTake label 2 = "0x" then strDrop label 2 else label
  "0x" ++ zfill l 8

/-- One `<branch_target>` element of the block's `out_branches`. -/
structure BranchTarget where
  text : String
  deriving DecidableEq, Repr

/-- Python `==` between a `str` and an `xml.etree.ElementTree.Element`:
`Element` defines no equality with strings, so `==` falls back to identity
and is always `False` for a string operand. -/
def pyStrEqElement (_s : String) (_e : BranchTarget) : Bool := false

/-- Python `s in elements` for a string and a list of XML elements:
membership tests each element with `==`, so it is always `False`. -/
def pyStrInElements (s : String) (es : List BranchTarget) : Bool :=
  es.any (pyStrEqElement s)

/-- The true/false target selection of the CBRANCH arm (lifter.py lines
226-248).  `none` models a raised exception (missing second out-edge, an
unparseable label, or the final `false_branch is None` check).  The
membership condition compares the label strings against the `Element`
objects of `branches`, so it never holds and the positional path
(`branches[0]` true, `branches[1]` false) is always taken; the matching
loop in the `else` arm is dead code. -/
def cbranchSelect (trueSymRaw : String) (branches : List BranchTarget) :
    Option (String × String) :=
  let trueBranch := format_label trueSymRaw
  match pyIntHex trueBranch with
  | none => none
  | some tv =>
    let offBy1 := format_label (pyHex (tv + 1).toNat)
    if ¬ pyStrInElements trueBranch branches ∨ ¬ pyStrInElements offBy1 branches then
      match branches.get? 0, branches.get? 1 with
      | some b0, some b1 => some (b0.text, b1.text)
      | _, _ => none
    else
      let pick := branches.foldl
        (fun (st : String × Option String) br =>
          if br.text = trueBranch then st
          else if br.text = offBy1 then (br.text, st.2)
          else (st.1, some br.text))
        (trueBranch, none)
      match pick.2 with
      | some fb => some (pick.1, fb)
      | none => none

/-- The CBRANCH emission (lifter.py line 247):
`builder.cbranch(conditional, self.ir_blocks[false_branch],
self.ir_blocks[true_branch])`.  llvmlite's `cbranch` takes
`(cond, truebr, falsebr)` positionally, so the selected false label lands
in the true-operand position and vice versa; `blocks` is the set of known
basic-block labels (`self.ir_blocks`), and an unknown label raises. -/
def liftCBranch (b : Builder) (cond : IRValue) (trueSymRaw : String)
    (branches : List BranchTarget) (blocks : List String) : Option Builder :=
  match cbranchSelect trueSymRaw branches with
  | none => none
  | some (tb, fb) =>
    if blocks.contains fb ∧ blocks.contains tb then
      some (b.emitUnit (Instr.cbranch cond fb tb))
    else none

/-! ## Instrumentation protocol and the CALL arm -/

/-- The module-scoped state touched by `Function.instrument`: the
`lifter.instrumentation` cache (source symbol to the created intrinsic
function, modelled by its name and return type) and the module's declared
global function names in declaration order. -/
structure ModuleSt where
  cache : List (String × (String × IRType))
  funcs : List String
  deriving DecidableEq, Repr

/-- `ir.Function(module, func_type, name)`: llvmlite registers the name in
the module scope with `deduplicate_name = False` for global values, so an
already-used name raises `NameError`; otherwise the function is appended to
the module's globals. -/
def declareFunction (m : ModuleSt) (name : String) : Option ModuleSt :=
  if m.funcs.contains name then none
  else some { m with funcs := m.funcs ++ [name] }

/-- `Function.instrument` (lifter.py lines 719-744).  The memo lookup is
keyed by the SOURCE symbol; `sym.path_start` yields `None` (and is never
cached); `sym.path_goal` and `sym.path_nongoal` each create their own
`verifier.error` declaration; `sym.imp.rand` creates `nd`; anything else
raises. -/
def instrument (callTarget : String) (m : ModuleSt) :
    Option (Option (String × IRType) × ModuleSt) :=
  match alookup m.cache callTarget with
  | some f => some (some f, m)
  | none =>
    if callTarget = "sym.path_start" then some (none, m)
    else if callTarget = "sym.path_goal" then
      match declareFunction m "verifier.error" with
      | none => none
      | some m1 =>
        some (some ("verifier.error", IRType.void),
          { m1 with cache := aupdate m1.cache callTarget ("verifier.error", IRType.void) })
    else if callTarget = "sym.path_nongoal" then
      match declareFunction m "verifier.error" with
      | none => none
      | some m1 =>
        some (some ("verifier.error", IRType.void),
          { m1 with cache := aupdate m1.cache callTarget ("verifier.error", IRType.void) })
    else if callTarget = "sym.imp.rand" then
      match declareFunction m "nd" with
      | none => none
      | some m1 =>
        some (some ("nd", IRType.int 32),
          { m1 with cache := aupdate m1.cache callTarget ("nd", IRType.int 32) })
    else none

/-- The module-level `instrumentation_list` (lifter.py line 5). -/
def instrumentationList : List String :=
  ["sym.path_start", "sym.path_goal", "sym.path_nongoal", "sym.imp.rand"]

/-- The argument-collection loop of the CALL arm (lifter.py lines 260-264):
resolve each remaining input and append it when it `is not None`; a raised
exception aborts. -/
def collectCallArgs (ctx : FnCtx) (temps : Temps) (b : Builder) :
    List Varnode → Option (List IRValue × Builder)
  | [] => some ([], b)
  | v :: rest =>
    match fetch_input ctx b v temps with
    | none => none
    | some (a, b1) =>
      match collectCallArgs ctx temps b1 rest with
      | none => none
      | some (args, b2) =>
        match a with
        | some av => some (av :: args, b2)
        | none => some (args, b2)

/-- Per-module function signature view used by the CALL arm:
name to (declared parameter count, return type), from
`self.lifter.functions_ir`. -/
abbrev FuncSigs := List (String × (Nat × IRType))

/-- The CALL arm (lifter.py lines 254-276): collect and filter arguments;
redirect instrumentation symbols through `instrument` (a `None` intrinsic
suppresses the call); otherwise call the known function — with no arguments
when the callee was declared with zero parameters, else with the collected
ones; finally store a non-`None` result when an output varnode is
present. -/
def liftCallArm (ctx : FnCtx) (sigs : FuncSigs) (m : ModuleSt) (b : Builder)
    (callee : String) (inputsTail : List Varnode) (target : Option Varnode)
    (temps : Temps) : Option (ModuleSt × Builder × Temps) :=
  match collectCallArgs ctx temps b inputsTail with
  | none => none
  | some (args, b1) =>
    if instrumentationList.contains callee then
      match instrument callee m with
      | none => none
      | some (none, m1) => some (m1, b1, temps)
      | some (some (f, retTy), m1) =>
        let (res, b2) := b1.emit retTy (fun v => Instr.call f [] v)
        match target with
        | some t =>
          let (b3, temps1) := fetch_store_output ctx b2 t res temps
          some (m1, b3, temps1)
        | none => some (m1, b2, temps)
    else
      match alookup sigs callee with
      | none => none
      | some (paramCount, retTy) =>
        let (res, b2) := b1.emit retTy
          (fun v => Instr.call callee (if paramCount = 0 then [] else args) v)
        match target with
        | some t =>
          let (b3, temps1) := fetch_store_output ctx b2 t res temps
          some (m, b3, temps1)
        | none => some (m, b2, temps)

/-- A sequence of bare CALL operations (no inputs beyond the callee symbol,
no output varnode), as in the instrumentation scenarios. -/
def processCalls (ctx : FnCtx) (sigs : FuncSigs) :
    List String → ModuleSt → Builder → Temps → Option (ModuleSt × Builder × Temps)
  | [], m, b, t => some (m, b, t)
  | c :: rest, m, b, t =>
    match liftCallArm ctx sigs m b c [] none t with
    | none => none
    | some (m1, b1, t1) => processCalls ctx sigs rest m1 b1 t1

/-! ## Signature synthesis and the RETURN arm -/

/-- The recorded `return_types[function]` entry: the string `"void"`, the
string `"undefined8"`, or the bit width `8 * size`. -/
inductive RetMark where
  | voidMark
  | undefined8Mark
  | widthMark (n : Nat)
  deriving DecidableEq, Repr

/-- The return-type synthesis of `Lifter.create_function_signatures`
(lifter.py lines 63-71), from the declared return type text and byte size:
the IR return type together with the recorded `return_types` entry (the
entry is preset to `"void"` and only overwritten in the `undefined8` and
sized branches). -/
def createFunctionReturn (typeText : String) (sizeBytes : Nat) : IRType × RetMark :=
  if typeText = "undefined8" then (IRType.int 64, RetMark.undefined8Mark)
  else if typeText = "void" then (IRType.void, RetMark.voidMark)
  else (IRType.int (8 * sizeBytes), RetMark.widthMark (8 * sizeBytes))

/-- The RETURN arm (lifter.py lines 289-297): a recorded `"void"` return
type emits `ret void`; any other recorded entry resolves `inputs[1]` (here
already fetched) and returns it. -/
def liftReturnArm (b : Builder) (mark : RetMark) (retVal : IRValue) : Builder :=
  if mark = RetMark.voidMark then b.emitUnit Instr.retVoid
  else b.emitUnit (Instr.ret retVal)


/-! ## Rendering helpers used by the claim statements -/

/-- Is the instruction a value extension (`zext` or `sext`)? -/
def isExtension : Instr → Bool
  | .zext _ _ _ => true
  | .sext _ _ _ => true
  | _ => false

/-- The block key as the claim words it: `0x` followed by the address's
LOWERCASE hexadecimal digits left-padded with zeros to eight digits.  This
is the comparison target for `format_label`, which performs no case
conversion. -/
def claimBlockKey (addr : String) : String :=
  let digits := if strTake addr 2 = "0x" then strDrop addr 2 else addr
  "0x" ++ (⟨padZeroL 8 (lowerStr digits).data⟩ : String)

/-- Does the string start with a Python sign character (`-` or `+`)? -/
def startsWithSign (s : String) : Bool :=
  match s.data with
  | c :: _ => c = '-' ∨ c = '+'
  | [] => false

/-! ## Helper lemmas -/

theorem alookup_aupdate {α : Type} (m : List (String × α)) (k : String) (v : α) :
    alookup (aupdate m k v) k = some v := by
  induction m with
  | nil => simp [aupdate, alookup]
  | cons kv rest ih =>
    by_cases h : kv.1 = k
    · simp [aupdate, alookup, h]
    · simp [aupdate, alookup, h, ih]

theorem IRValue.retype_ty (v : IRValue) (t : IRType) : (v.retype t).ty = t := by
  cases v <;> rfl

@[simp] theorem IRValue.ty_const (t : IRType) (v : Int) : (IRValue.const t v).ty = t := rfl

@[simp] theorem IRValue.ty_param (n : String) (t : IRType) : (IRValue.param n t).ty = t := rfl

@[simp] theorem IRValue.ty_slot (n : String) (t : IRType) : (IRValue.slot n t).ty = t := rfl

@[simp] theorem IRValue.ty_instr (i : Nat) (t : IRType) : (IRValue.instr i t).ty = t := rfl

/-- The store side of the resolver only ever appends `gep`, `bitcast` and
`store` instructions: it never inserts a `zext` or `sext`. -/
theorem fetch_store_output_instrs (ctx : FnCtx) (b : Builder) (arg : Varnode)
    (result : IRValue) (temps : Temps) :
    ∃ tail, ((fetch_store_output ctx b arg result temps).1).instrs = b.instrs ++ tail
      ∧ ∀ i ∈ tail, isExtension i = false := by
  rcases hl : alookup ctx.localVars (strippedSymbol arg.symbol) with _ | w
  · rcases hg : alookup ctx.globalVars (strippedSymbol arg.symbol) with _ | w
    · by_cases hr : strContains (strippedSymbol arg.symbol) "register"
      · exact ⟨[], by simp [fetch_store_output, hl, hg, hr], by simp⟩
      · by_cases hu : strContains (strippedSymbol arg.symbol) "unique"
        · exact ⟨[], by simp [fetch_store_output, hl, hg, hr, hu], by simp⟩
        · exact ⟨[], by simp [fetch_store_output, hl, hg, hr, hu], by simp⟩
    · refine ⟨[Instr.store result (IRValue.slot (strippedSymbol arg.symbol)
        (IRType.pointer (IRType.int w))) (IRValue.instr b.nextId IRType.void)], ?_, ?_⟩
      · simp [fetch_store_output, hl, hg, Builder.emit]
      · simp [isExtension]
  · rcases ho : arg.offsetAttr with _ | off
    · by_cases hv : result.ty = IRType.void
      · exact ⟨[], by simp [fetch_store_output, hl, ho, hv, Builder.emit], by simp⟩
      · by_cases hq : (IRType.pointer (IRType.int w) : IRType) = IRType.pointer result.ty
        · refine ⟨[Instr.store result (IRValue.slot (strippedSymbol arg.symbol)
            (IRType.pointer (IRType.int w))) (IRValue.instr b.nextId IRType.void)], ?_, ?_⟩
          · simp [fetch_store_output, hl, ho, hv, hq, Builder.emit]
          · simp [isExtension]
        · refine ⟨[Instr.bitcast (IRValue.slot (strippedSymbol arg.symbol)
              (IRType.pointer (IRType.int w))) (IRType.pointer result.ty)
              (IRValue.instr b.nextId (IRType.pointer result.ty)),
            Instr.store result (IRValue.instr b.nextId (IRType.pointer result.ty))
              (IRValue.instr (b.nextId + 1) IRType.void)], ?_, ?_⟩
          · simp [fetch_store_output, hl, ho, hv, hq, Builder.emit]
          · simp [isExtension]
    · rcases hosz : arg.offsetSizeAttr with _ | osz
      · by_cases hv : result.ty = IRType.void
        · exact ⟨[], by simp [fetch_store_output, hl, ho, hosz, hv, Builder.emit], by simp⟩
        · by_cases hq : (IRType.pointer (IRType.int w) : IRType) = IRType.pointer result.ty
          · refine ⟨[Instr.store result (IRValue.slot (strippedSymbol arg.symbol)
              (IRType.pointer (IRType.int w))) (IRValue.instr b.nextId IRType.void)], ?_, ?_⟩
            · simp [fetch_store_output, hl, ho, hosz, hv, hq, Builder.emit]
            · simp [isExtension]
          · refine ⟨[Instr.bitcast (IRValue.slot (strippedSymbol arg.symbol)
                (IRType.pointer (IRType.int w))) (IRType.pointer result.ty)
                (IRValue.instr b.nextId (IRType.pointer result.ty)),
              Instr.store result (IRValue.instr b.nextId (IRType.pointer result.ty))
                (IRValue.instr (b.nextId + 1) IRType.void)], ?_, ?_⟩
            · simp [fetch_store_output, hl, ho, hosz, hv, hq, Builder.emit]
            · simp [isExtension]
      · by_cases hv : result.ty = IRType.void
        · refine ⟨[Instr.gep (IRValue.slot (strippedSymbol arg.symbol)
            (IRType.pointer (IRType.int w))) (8 * osz) (8 * off)
            (IRValue.instr b.nextId (IRType.pointer (IRType.int w)))], ?_, ?_⟩
          · simp [fetch_store_output, hl, ho, hosz, hv, Builder.emit]
          · simp [isExtension]
        · by_cases hq : (IRType.pointer (IRType.int w) : IRType) = IRType.pointer result.ty
          · refine ⟨[Instr.gep (IRValue.slot (strippedSymbol arg.symbol)
                (IRType.pointer (IRType.int w))) (8 * osz) (8 * off)
                (IRValue.instr b.nextId (IRType.pointer (IRType.int w))),
              Instr.store result (IRValue.instr b.nextId (IRType.pointer (IRType.int w)))
                (IRValue.instr (b.nextId + 1) IRType.void)], ?_, ?_⟩
            · simp [fetch_store_output, hl, ho, hosz, hv, hq, Builder.emit]
            · simp [isExtension]
          · refine ⟨[Instr.gep (IRValue.slot (strippedSymbol arg.symbol)
                (IRType.pointer (IRType.int w))) (8 * osz) (8 * off)
                (IRValue.instr b.nextId (IRType.pointer (IRType.int w))),
              Instr.bitcast (IRValue.instr b.nextId (IRType.pointer (IRType.int w)))
                (IRType.pointer result.ty)
                (IRValue.instr (b.nextId + 1) (IRType.pointer result.ty)),
              Instr.store result (IRValue.instr (b.nextId + 1) (IRType.pointer result.ty))
                (IRValue.instr (b.nextId + 2) IRType.void)], ?_, ?_⟩
            · simp [fetch_store_output, hl, ho, hosz, hv, hq, Builder.emit]
            · simp [isExtension]

/-! ## Claim theorems -/

/-- C1: every binary integer operation that is actually emitted has
operands of one common integer width.  The reconciled arms (INT_ADD and its
siblings) equalize the operand types before emitting, and the emitted `add`
uses exactly the reconciled pair; the unreconciled INT_XOR and INT_OR arms
can only emit when the fetched operand types already agree, because
llvmlite's binary-op wrapper rejects mismatched operand types with a
`ValueError` — at unequal widths those arms abort the lift with nothing
emitted, so no emitted operation ever carries unequal widths. -/
theorem C1_emitted_binop_operands_same_width (ctx : FnCtx) (b : Builder)
    (input0 input1 lhs rhs : IRValue) (target : Varnode) (temps : Temps)
    (stale : IRValue × IRValue) (w1 w2 n1 n2 : Nat)
    (hx1 : input0.ty = IRType.int n1) (hx2 : input1.ty = IRType.int n2)
    (h1 : lhs.ty = IRType.int w1) (h2 : rhs.ty = IRType.int w2) :
    (∀ out, liftIntXor ctx b input0 input1 target temps = some out → n1 = n2)
    ∧ (∀ out, liftIntOr ctx b (some stale) input0 input1 target temps = some out → n1 = n2)
    ∧ (n1 ≠ n2 → liftIntXor ctx b input0 input1 target temps = none)
    ∧ (reconcile lhs rhs).1.ty = (reconcile lhs rhs).2.ty
    ∧ Instr.add (reconcile lhs rhs).1 (reconcile lhs rhs).2
        (IRValue.instr b.nextId (reconcile lhs rhs).1.ty)
        ∈ (liftIntAdd ctx b lhs rhs target temps).1.instrs := by
  obtain ⟨sl, sr⟩ := stale
  refine ⟨?_, ?_, ?_, ?_, ?_⟩
  · intro out h
    by_cases hty : input0.ty = input1.ty
    · rw [hx1, hx2] at hty
      simpa using hty
    · simp [liftIntXor, hty] at h
  · intro out h
    by_cases hty : input0.ty = input1.ty
    · rw [hx1, hx2] at hty
      simpa using hty
    · simp [liftIntOr, hty] at h
  · intro hne
    have hty : input0.ty ≠ input1.ty := by
      rw [hx1, hx2]
      simp [hne]
    simp [liftIntXor, hty]
  · by_cases hty : lhs.ty = rhs.ty
    · have hnf : needsFix lhs rhs = false := by simp [needsFix, hty]
      simp [reconcile, hnf, hty]
    · have hw : w1 ≠ w2 := fun hcon => hty (by rw [h1, h2, hcon])
      have hfix : needsFix lhs rhs = true := by
        simp [needsFix, h1, h2, IRType.isInt, hw]
      have hrec : reconcile lhs rhs
          = (if w1 > w2 then (lhs, rhs.retype (IRType.int w1))
             else (lhs.retype (IRType.int w2), rhs)) := by
        simp [reconcile, hfix, fixConflictingIntType, h1, h2, IRType.width]
      rcases hw.lt_or_lt with hlt | hlt
      · rw [hrec, if_neg (by omega)]
        simp [IRValue.retype_ty, h2]
      · rw [hrec, if_pos (by omega)]
        simp [IRValue.retype_ty, h1]
  · rcases hA : reconcile lhs rhs with ⟨l, r⟩
    have hadd : liftIntAdd ctx b lhs rhs target temps
        = fetch_store_output ctx ⟨b.nextId + 1, b.instrs
            ++ [Instr.add l r (IRValue.instr b.nextId l.ty)]⟩ target
            (IRValue.instr b.nextId l.ty) temps := by
      simp [liftIntAdd, hA, Builder.emit]
    obtain ⟨tail, ht, _⟩ := fetch_store_output_instrs ctx
      ⟨b.nextId + 1, b.instrs ++ [Instr.add l r (IRValue.instr b.nextId l.ty)]⟩ target
      (IRValue.instr b.nextId l.ty) temps
    simp only [hA]
    rw [hadd, ht]
    simp

/-- Witness for C1: with fetched operand widths 32 and 64 the INT_XOR arm
aborts without emitting anything, and the reconciled pair handed to the
emitted `add` carries one common type. -/
theorem C1_emitted_binop_witness :
    liftIntXor ⟨[], [], []⟩ ⟨0, []⟩ (IRValue.const (IRType.int 32) 1)
        (IRValue.const (IRType.int 64) 2) ⟨"unique0x10", 4, none, none⟩ [] = none
    ∧ (reconcile (IRValue.const (IRType.int 32) 1)
          (IRValue.const (IRType.int 64) 2)).1.ty
      = (reconcile (IRValue.const (IRType.int 32) 1)
          (IRValue.const (IRType.int 64) 2)).2.ty :=
  ⟨(C1_emitted_binop_operands_same_width ⟨[], [], []⟩ ⟨0, []⟩
      (IRValue.const (IRType.int 32) 1) (IRValue.const (IRType.int 64) 2)
      (IRValue.const (IRType.int 32) 1) (IRValue.const (IRType.int 64) 2)
      ⟨"unique0x10", 4, none, none⟩ []
      (IRValue.const (IRType.int 32) 0, IRValue.const (IRType.int 32) 0)
      32 64 32 64 rfl rfl rfl rfl).2.2.1 (by decide),
   (C1_emitted_binop_operands_same_width ⟨[], [], []⟩ ⟨0, []⟩
      (IRValue.const (IRType.int 32) 1) (IRValue.const (IRType.int 64) 2)
      (IRValue.const (IRType.int 32) 1) (IRValue.const (IRType.int 64) 2)
      ⟨"unique0x10", 4, none, none⟩ []
      (IRValue.const (IRType.int 32) 0, IRValue.const (IRType.int 32) 0)
      32 64 32 64 rfl rfl rfl rfl).2.2.2.1⟩

/-- C2: the claim says every comparison arm, INT_LESSEQUAL included, stores
its emitted result through the resolver.  Evaluating the embedded
INT_LESSEQUAL arm shows the icmp is emitted but the temporaries table is
left empty — no store happens — while the sibling INT_SLESSEQUAL arm at the
same inputs stores its result for the `unique0x42` output varnode. -/
theorem C2_intLessEqual_result_not_stored :
    liftIntLessEqual ⟨0, []⟩ (IRValue.const (IRType.int 32) 1)
        (IRValue.const (IRType.int 32) 2) []
      = (⟨1, [Instr.icmp Pred.ule (IRValue.const (IRType.int 32) 1)
          (IRValue.const (IRType.int 32) 2) (IRValue.instr 0 (IRType.int 1))]⟩, [])
    ∧ liftIntSLessEqual ⟨[], [], []⟩ ⟨0, []⟩ (IRValue.const (IRType.int 32) 1)
        (IRValue.const (IRType.int 32) 2) ⟨"unique0x42", 1, none, none⟩ []
      = (⟨1, [Instr.icmp Pred.sle (IRValue.const (IRType.int 32) 1)
          (IRValue.const (IRType.int 32) 2) (IRValue.instr 0 (IRType.int 1))]⟩,
          [("unique0x42", IRValue.instr 0 (IRType.int 1))]) := by
  refine ⟨by decide, by decide⟩

/-- C3: the claim says a CBRANCH whose literal true symbol equals one of the
two out-edge labels takes that edge as the true target, positional
assignment being reserved for when neither matches.  Evaluating the
embedded arm on out-edges `0x00000010`, `0x00000014` with true symbol
`0x00000014` (which matches the second edge) shows the positional path is
taken anyway — the string-vs-Element membership test never succeeds — so
the emitted operands are (cond, `0x00000014`, `0x00000010`) where the claim
demands (cond, `0x00000010`, `0x00000014`). -/
theorem C3_cbranch_positional_despite_match :
    liftCBranch ⟨0, []⟩ (IRValue.const (IRType.int 1) 1) "0x00000014"
        [⟨"0x00000010"⟩, ⟨"0x00000014"⟩] ["0x00000010", "0x00000014"]
      = some ⟨0, [Instr.cbranch (IRValue.const (IRType.int 1) 1) "0x00000014" "0x00000010"]⟩
    ∧ Instr.cbranch (IRValue.const (IRType.int 1) 1) "0x00000014" "0x00000010"
      ≠ Instr.cbranch (IRValue.const (IRType.int 1) 1) "0x00000010" "0x00000014" := by
  refine ⟨by decide, by decide⟩

/-- C4: width reconciliation for a binary integer operation with integer
operands of unequal widths retypes the narrower operand in place to the
wider operand's integer type (the other operand untouched) and emits no
extension: at the emitted `add` both operands carry the wider width, and
nothing the INT_ADD arm emits is a `zext` or `sext`. -/
theorem C4_reconciliation_retypes_in_place (ctx : FnCtx) (b : Builder)
    (target : Varnode) (temps : Temps) (lhs rhs : IRValue) (w1 w2 : Nat)
    (h1 : lhs.ty = IRType.int w1) (h2 : rhs.ty = IRType.int w2) (hne : w1 ≠ w2) :
    (w1 < w2 → reconcile lhs rhs = (lhs.retype (IRType.int w2), rhs))
    ∧ (w2 < w1 → reconcile lhs rhs = (lhs, rhs.retype (IRType.int w1)))
    ∧ (reconcile lhs rhs).1.ty = IRType.int (max w1 w2)
    ∧ (reconcile lhs rhs).2.ty = IRType.int (max w1 w2)
    ∧ Instr.add (reconcile lhs rhs).1 (reconcile lhs rhs).2
        (IRValue.instr b.nextId (reconcile lhs rhs).1.ty)
        ∈ (liftIntAdd ctx b lhs rhs target temps).1.instrs
    ∧ ∀ i ∈ (liftIntAdd ctx b lhs rhs target temps).1.instrs,
        i ∈ b.instrs ∨ isExtension i = false := by
  have hfix : needsFix lhs rhs = true := by
    simp [needsFix, h1, h2, IRType.isInt, hne]
  have hrec : reconcile lhs rhs
      = (if w1 > w2 then (lhs, rhs.retype (IRType.int w1))
         else (lhs.retype (IRType.int w2), rhs)) := by
    simp [reconcile, hfix, fixConflictingIntType, h1, h2, IRType.width]
  rcases hne.lt_or_lt with hlt | hlt
  · have hA : reconcile lhs rhs = (lhs.retype (IRType.int w2), rhs) := by
      rw [hrec, if_neg (by omega)]
    have hadd : liftIntAdd ctx b lhs rhs target temps
        = fetch_store_output ctx
            ⟨b.nextId + 1, b.instrs ++ [Instr.add (lhs.retype (IRType.int w2)) rhs
              (IRValue.instr b.nextId (lhs.retype (IRType.int w2)).ty)]⟩ target
            (IRValue.instr b.nextId (lhs.retype (IRType.int w2)).ty) temps := by
      simp [liftIntAdd, hA, Builder.emit]
    obtain ⟨tail, ht, hta⟩ := fetch_store_output_instrs ctx
      ⟨b.nextId + 1, b.instrs ++ [Instr.add (lhs.retype (IRType.int w2)) rhs
        (IRValue.instr b.nextId (lhs.retype (IRType.int w2)).ty)]⟩ target
      (IRValue.instr b.nextId (lhs.retype (IRType.int w2)).ty) temps
    refine ⟨fun _ => hA, fun h => absurd h (by omega), ?_, ?_, ?_, ?_⟩
    · rw [hA]
      simp [IRValue.retype_ty, Nat.max_eq_right hlt.le]
    · rw [hA]
      simp [h2, Nat.max_eq_right hlt.le]
    · rw [hA, hadd, ht]
      simp
    · intro i hi
      rw [hadd, ht] at hi
      rcases List.mem_append.mp hi with hi1 | hi2
      · rcases List.mem_append.mp hi1 with hi3 | hi4
        · exact Or.inl hi3
        · right
          rcases List.mem_singleton.mp hi4 with rfl
          rfl
      · exact Or.inr (hta i hi2)
  · have hA : reconcile lhs rhs = (lhs, rhs.retype (IRType.int w1)) := by
      rw [hrec, if_pos (by omega)]
    have hadd : liftIntAdd ctx b lhs rhs target temps
        = fetch_store_output ctx
            ⟨b.nextId + 1, b.instrs ++ [Instr.add lhs (rhs.retype (IRType.int w1))
              (IRValue.instr b.nextId lhs.ty)]⟩ target
            (IRValue.instr b.nextId lhs.ty) temps := by
      simp [liftIntAdd, hA, Builder.emit]
    obtain ⟨tail, ht, hta⟩ := fetch_store_output_instrs ctx
      ⟨b.nextId + 1, b.instrs ++ [Instr.add lhs (rhs.retype (IRType.int w1))
        (IRValue.instr b.nextId lhs.ty)]⟩ target
      (IRValue.instr b.nextId lhs.ty) temps
    refine ⟨fun h => absurd h (by omega), fun _ => hA, ?_, ?_, ?_, ?_⟩
    · rw [hA]
      simp [h1, Nat.max_eq_left hlt.le]
    · rw [hA]
      simp [IRValue.retype_ty, Nat.max_eq_left hlt.le]
    · rw [hA, hadd, ht]
      simp [h1]
    · intro i hi
      rw [hadd, ht] at hi
      rcases List.mem_append.mp hi with hi1 | hi2
      · rcases List.mem_append.mp hi1 with hi3 | hi4
        · exact Or.inl hi3
        · right
          rcases List.mem_singleton.mp hi4 with rfl
          rfl
      · exact Or.inr (hta i hi2)

/-- Witness for C4 at integer operands of widths 32 and 64. -/
theorem C4_reconciliation_witness :
    (reconcile (IRValue.const (IRType.int 32) 5) (IRValue.const (IRType.int 64) 9)).1.ty
      = IRType.int (max 32 64)
    ∧ (reconcile (IRValue.const (IRType.int 32) 5) (IRValue.const (IRType.int 64) 9)).2.ty
      = IRType.int (max 32 64) :=
  ⟨(C4_reconciliation_retypes_in_place ⟨[], [], []⟩ ⟨0, []⟩ ⟨"unique0x12", 4, none, none⟩ []
      (IRValue.const (IRType.int 32) 5) (IRValue.const (IRType.int 64) 9) 32 64
      rfl rfl (by decide)).2.2.1,
   (C4_reconciliation_retypes_in_place ⟨[], [], []⟩ ⟨0, []⟩ ⟨"unique0x12", 4, none, none⟩ []
      (IRValue.const (IRType.int 32) 5) (IRValue.const (IRType.int 64) 9) 32 64
      rfl rfl (by decide)).2.2.2.1⟩

/-- C5 counterexample: for a `register0x*` name the claim fails.  Every
`register0x*` varnode gets a stack slot from `recover_locals`, so the store
goes through the local-variable branch (a `store` instruction; the
temporaries table stays empty) and a subsequent input resolution returns a
fresh `load` instruction — not the most recently stored value, although the
requested width (32) equals the stored width, where the claim demands the
value itself. -/
theorem C5_register_fetch_is_load_not_value :
    fetch_store_output ⟨[], [], [("register0x00000010", 32)]⟩ ⟨0, []⟩
        ⟨"register0x00000010", 4, none, none⟩ (IRValue.const (IRType.int 32) 5) []
      = (⟨1, [Instr.store (IRValue.const (IRType.int 32) 5)
          (IRValue.slot "register0x00000010" (IRType.pointer (IRType.int 32)))
          (IRValue.instr 0 IRType.void)]⟩, [])
    ∧ fetch_input ⟨[], [], [("register0x00000010", 32)]⟩
        ⟨1, [Instr.store (IRValue.const (IRType.int 32) 5)
          (IRValue.slot "register0x00000010" (IRType.pointer (IRType.int 32)))
          (IRValue.instr 0 IRType.void)]⟩
        ⟨"register0x00000010", 4, none, none⟩ []
      = some (some (IRValue.instr 1 (IRType.int 32)),
          ⟨2, [Instr.store (IRValue.const (IRType.int 32) 5)
            (IRValue.slot "register0x00000010" (IRType.pointer (IRType.int 32)))
            (IRValue.instr 0 IRType.void),
          Instr.load (IRValue.slot "register0x00000010" (IRType.pointer (IRType.int 32)))
            (IRValue.instr 1 (IRType.int 32))]⟩)
    ∧ IRValue.instr 1 (IRType.int 32) ≠ IRValue.const (IRType.int 32) 5 := by
  refine ⟨by decide, by decide, by decide⟩

/-- C5 as amended: for `unique*` names (which, not being allocated stack
slots, actually reach the temporaries table) a store through the resolver
replaces the table entry, and a subsequent input resolution returns exactly
the stored value when the requested width equals the stored width, or a
truncation of the stored value to the requested width when a narrower
non-1-bit view is demanded; `register0x*` names instead resolve through
their stack slot as shown by the counterexample. -/
theorem C5_unique_temps_roundtrip (ctx : FnCtx) (b : Builder) (temps : Temps)
    (s : String) (v : IRValue) (n szB : Nat)
    (hvar : strContains s "var" = false)
    (hbv : strContains s "bVar" = false)
    (hav : strContains s "argv" = false)
    (hac : strContains s "argc" = false)
    (harg : strContains s "arg" = false)
    (huniq : strContains s "unique" = true)
    (hloc : alookup ctx.localVars s = none)
    (hglob : alookup ctx.globalVars s = none)
    (hty : v.ty = IRType.int n)
    (hn1 : n ≠ 1)
    (hszB : szB ≠ 1) :
    (fetch_store_output ctx b ⟨s, szB, none, none⟩ v temps).1 = b
    ∧ (fetch_store_output ctx b ⟨s, szB, none, none⟩ v temps).2 = aupdate temps s v
    ∧ alookup (aupdate temps s v) s = some v
    ∧ (szB * 8 = n →
        fetch_input ctx b ⟨s, szB, none, none⟩ (aupdate temps s v) = some (some v, b))
    ∧ (szB * 8 < n →
        fetch_input ctx b ⟨s, szB, none, none⟩ (aupdate temps s v)
          = some (some (IRValue.instr b.nextId (IRType.int (szB * 8))),
              ⟨b.nextId + 1, b.instrs ++ [Instr.truncI v (IRType.int (szB * 8))
                (IRValue.instr b.nextId (IRType.int (szB * 8)))]⟩)) := by
  have hstore : fetch_store_output ctx b ⟨s, szB, none, none⟩ v temps
      = (b, aupdate temps s v) := by
    by_cases hr : strContains s "register" <;>
      simp [fetch_store_output, strippedSymbol, hvar, hloc, hglob, hr, huniq]
  refine ⟨by rw [hstore], by rw [hstore], alookup_aupdate temps s v, ?_, ?_⟩
  · intro h
    subst h
    simp [fetch_input, strippedSymbol, hvar, requestedWidth, hbv, hszB, hav, hac, harg,
      hglob, hloc, alookup_aupdate, hty]
  · intro h
    have hne2 : IRType.int n ≠ IRType.int (szB * 8) := by
      simp only [ne_eq, IRType.int.injEq]
      omega
    have hne1 : IRType.int n ≠ IRType.int 1 := by
      simp [hn1]
    simp [fetch_input, strippedSymbol, hvar, requestedWidth, hbv, hszB, hav, hac, harg,
      hglob, hloc, alookup_aupdate, hty, hne2, hne1, Builder.emit]

/-- Witness for C5 as amended: a `unique0x100` temporary of width 32 read
back at width 32 resolves to the stored value itself. -/
theorem C5_unique_temps_witness :
    fetch_input ⟨[], [], []⟩ ⟨0, []⟩ ⟨"unique0x100", 4, none, none⟩
        (aupdate [] "unique0x100" (IRValue.const (IRType.int 32) 7))
      = some (some (IRValue.const (IRType.int 32) 7), ⟨0, []⟩) :=
  (C5_unique_temps_roundtrip ⟨[], [], []⟩ ⟨0, []⟩ [] "unique0x100"
    (IRValue.const (IRType.int 32) 7) 32 4 (by decide) (by decide) (by decide) (by decide)
    (by decide) (by decide) rfl rfl rfl (by decide) (by decide)).2.2.2.1 rfl

/-- With `sym.path_goal` already memoized to `verifier.error`, a further
CALL to it reuses the cached intrinsic: the module is unchanged and one
argumentless call is emitted. -/
theorem liftCallArm_goal_cached (m : ModuleSt) (b : Builder) (t : Temps)
    (hc : alookup m.cache "sym.path_goal" = some ("verifier.error", IRType.void)) :
    liftCallArm ⟨[], [], []⟩ [] m b "sym.path_goal" [] none t
      = some (m, ⟨b.nextId + 1, b.instrs
          ++ [Instr.call "verifier.error" [] (IRValue.instr b.nextId IRType.void)]⟩, t) := by
  have hmem : instrumentationList.contains "sym.path_goal" = true := by decide
  simp [liftCallArm, collectCallArgs, hmem, instrument, hc, Builder.emit]
  intro hno
  exact absurd (by decide) hno

/-- Replicated CALLs to an already-memoized `sym.path_goal` add no further
declaration and emit one argumentless `verifier.error` call each. -/
theorem processCalls_goal_replicate (n : Nat) : ∀ (m : ModuleSt) (b : Builder) (t : Temps),
    alookup m.cache "sym.path_goal" = some ("verifier.error", IRType.void) →
    ∃ b2 tail, processCalls ⟨[], [], []⟩ [] (List.replicate n "sym.path_goal") m b t
        = some (m, b2, t)
      ∧ b2.instrs = b.instrs ++ tail
      ∧ tail.length = n
      ∧ ∀ i ∈ tail, ∃ id, i = Instr.call "verifier.error" [] (IRValue.instr id IRType.void) := by
  induction n with
  | zero =>
    intro m b t _
    exact ⟨b, [], by simp [processCalls], by simp, rfl, by simp⟩
  | succ k ih =>
    intro m b t hc
    obtain ⟨b2, tail, h1, h2, h3, h4⟩ :=
      ih m ⟨b.nextId + 1, b.instrs
        ++ [Instr.call "verifier.error" [] (IRValue.instr b.nextId IRType.void)]⟩ t hc
    refine ⟨b2, Instr.call "verifier.error" [] (IRValue.instr b.nextId IRType.void) :: tail,
      ?_, ?_, ?_, ?_⟩
    · rw [List.replicate_succ]
      simp only [processCalls, liftCallArm_goal_cached m b t hc]
      exact h1
    · simp [h2]
    · simp [h3]
    · intro i hi
      rcases List.mem_cons.mp hi with rfl | hi2
      · exact ⟨b.nextId, rfl⟩
      · exact h4 i hi2

/-- A CALL to `sym.path_start` on the pristine module produces no call and
no declaration. -/
theorem processCalls_start_replicate (k : Nat) :
    processCalls ⟨[], [], []⟩ [] (List.replicate k "sym.path_start") ⟨[], []⟩ ⟨0, []⟩ []
      = some (⟨[], []⟩, ⟨0, []⟩, []) := by
  induction k with
  | zero => simp [processCalls]
  | succ j ih =>
    have hstep : liftCallArm ⟨[], [], []⟩ [] ⟨[], []⟩ ⟨0, []⟩ "sym.path_start" [] none []
        = some (⟨[], []⟩, ⟨0, []⟩, []) := by decide
    rw [List.replicate_succ]
    simp only [processCalls, hstep]
    exact ih

/-- C6 counterexample: the memo is keyed by the SOURCE symbol, so after a
CALL to `sym.path_goal` has declared `verifier.error`, a CALL to
`sym.path_nongoal` in the same module attempts to declare a second global
of the same name, which llvmlite rejects — the lift aborts instead of
leaving exactly one `verifier.error`. -/
theorem C6_verifier_error_double_declaration :
    processCalls ⟨[], [], []⟩ [] ["sym.path_goal"] ⟨[], []⟩ ⟨0, []⟩ []
      = some (⟨[("sym.path_goal", ("verifier.error", IRType.void))], ["verifier.error"]⟩,
          ⟨1, [Instr.call "verifier.error" [] (IRValue.instr 0 IRType.void)]⟩, [])
    ∧ processCalls ⟨[], [], []⟩ [] ["sym.path_goal", "sym.path_nongoal"] ⟨[], []⟩ ⟨0, []⟩ []
      = none := by
  refine ⟨by decide, by decide⟩

/-- C6 as amended: memoization is per source symbol.  Any number of CALLs to
`sym.path_goal` alone declares `verifier.error` exactly once, every emitted
call targets it with no arguments, and `sym.path_start` CALLs produce no
call and no declaration at all; a module calling both `sym.path_goal` and
`sym.path_nongoal` instead aborts on the duplicate declaration
(see the counterexample). -/
theorem C6_instrumentation_memoized_per_symbol (n k : Nat) :
    (∃ b2 tail,
      processCalls ⟨[], [], []⟩ [] (List.replicate (n + 1) "sym.path_goal") ⟨[], []⟩ ⟨0, []⟩ []
        = some (⟨[("sym.path_goal", ("verifier.error", IRType.void))], ["verifier.error"]⟩,
            b2, [])
      ∧ b2.instrs = tail
      ∧ tail.length = n + 1
      ∧ ∀ i ∈ tail, ∃ id, i = Instr.call "verifier.error" [] (IRValue.instr id IRType.void))
    ∧ processCalls ⟨[], [], []⟩ [] (List.replicate k "sym.path_start") ⟨[], []⟩ ⟨0, []⟩ []
      = some (⟨[], []⟩, ⟨0, []⟩, []) := by
  constructor
  · have hstep : liftCallArm ⟨[], [], []⟩ [] ⟨[], []⟩ ⟨0, []⟩ "sym.path_goal" [] none []
        = some (⟨[("sym.path_goal", ("verifier.error", IRType.void))], ["verifier.error"]⟩,
            ⟨1, [Instr.call "verifier.error" [] (IRValue.instr 0 IRType.void)]⟩, []) := by
      decide
    obtain ⟨b2, tail, h1, h2, h3, h4⟩ := processCalls_goal_replicate n
      ⟨[("sym.path_goal", ("verifier.error", IRType.void))], ["verifier.error"]⟩
      ⟨1, [Instr.call "verifier.error" [] (IRValue.instr 0 IRType.void)]⟩ [] (by decide)
    refine ⟨b2, Instr.call "verifier.error" [] (IRValue.instr 0 IRType.void) :: tail,
      ?_, ?_, ?_, ?_⟩
    · rw [List.replicate_succ]
      simp only [processCalls, hstep]
      exact h1
    · simpa using h2
    · simp [h3]
    · intro i hi
      rcases List.mem_cons.mp hi with rfl | hi2
      · exact ⟨0, rfl⟩
      · exact h4 i hi2
  · exact processCalls_start_replicate k

/-- C7: an input varnode that resolves as none of argument, global, local,
temporary or boolean literal falls to the constant parse (strip from the
first `U`, recognize a `0x` hex prefix), and a parse failure yields a zero
constant of the requested width instead of raising. -/
theorem C7_constant_fallback (ctx : FnCtx) (b : Builder) (temps : Temps)
    (s : String) (szB : Nat) (oa osa : Option Nat)
    (hvar : strContains s "var" = false)
    (hav : strContains s "argv" = false)
    (hac : strContains s "argc" = false)
    (harg : strContains s "arg" = false)
    (hf : strContains s "false" = false)
    (htr : strContains s "true" = false)
    (hglob : alookup ctx.globalVars s = none)
    (hloc : alookup ctx.localVars s = none)
    (htmp : alookup temps s = none) :
    fetch_input ctx b ⟨s, szB, oa, osa⟩ temps
      = some (some (IRValue.const (IRType.int (requestedWidth s szB))
          ((pyParseSymbolInt s).getD 0)), b)
    ∧ (pyParseSymbolInt s = none →
        fetch_input ctx b ⟨s, szB, oa, osa⟩ temps
          = some (some (IRValue.const (IRType.int (requestedWidth s szB)) 0), b)) := by
  have hmain : fetch_input ctx b ⟨s, szB, oa, osa⟩ temps
      = some (some (IRValue.const (IRType.int (requestedWidth s szB))
          ((pyParseSymbolInt s).getD 0)), b) := by
    cases hp : pyParseSymbolInt s <;>
      simp [fetch_input, strippedSymbol, hvar, hav, hac, harg, hglob, hloc, htmp,
        hf, htr, hp]
  exact ⟨hmain, fun h => by rw [hmain, h]; rfl⟩

/-- Witness for C7: `123U` parses to 123 after stripping from the `U`;
`zz!` fails to parse and yields a zero constant of width 32. -/
theorem C7_constant_fallback_witness :
    fetch_input ⟨[], [], []⟩ ⟨0, []⟩ ⟨"123U", 4, none, none⟩ []
      = some (some (IRValue.const (IRType.int 32) 123), ⟨0, []⟩)
    ∧ fetch_input ⟨[], [], []⟩ ⟨0, []⟩ ⟨"zz!", 4, none, none⟩ []
      = some (some (IRValue.const (IRType.int 32) 0), ⟨0, []⟩) :=
  ⟨(C7_constant_fallback ⟨[], [], []⟩ ⟨0, []⟩ [] "123U" 4 none none (by decide) (by decide)
      (by decide) (by decide) (by decide) (by decide) rfl rfl rfl).1,
   (C7_constant_fallback ⟨[], [], []⟩ ⟨0, []⟩ [] "zz!" 4 none none (by decide) (by decide)
      (by decide) (by decide) (by decide) (by decide) rfl rfl rfl).2 (by decide)⟩

/-- C8: return-type synthesis maps the text `void` to the void type, the
text `undefined8` to a 64-bit integer whose recorded mark makes the RETURN
arm emit a value, and any other text to an integer of 8 times the declared
byte size. -/
theorem C8_return_type_synthesis (t : String) (sz : Nat) (b : Builder) (v : IRValue) :
    createFunctionReturn "void" sz = (IRType.void, RetMark.voidMark)
    ∧ createFunctionReturn "undefined8" sz = (IRType.int 64, RetMark.undefined8Mark)
    ∧ liftReturnArm b RetMark.undefined8Mark v = b.emitUnit (Instr.ret v)
    ∧ (t ≠ "void" → t ≠ "undefined8" →
        createFunctionReturn t sz = (IRType.int (8 * sz), RetMark.widthMark (8 * sz))) := by
  refine ⟨by simp [createFunctionReturn], by simp [createFunctionReturn], ?_, ?_⟩
  · simp [liftReturnArm]
  · intro h1 h2
    simp [createFunctionReturn, h1, h2]

/-- Witness for C8 on the declared type text `uint4` of size 4. -/
theorem C8_return_type_witness :
    createFunctionReturn "uint4" 4 = (IRType.int 32, RetMark.widthMark 32) :=
  (C8_return_type_synthesis "uint4" 4 ⟨0, []⟩ (IRValue.const (IRType.int 1) 0)).2.2.2
    (by decide) (by decide)

/-- C9 counterexample: `format_label` performs no case conversion, so for
the address string `0x1A` the produced key keeps the uppercase digit while
the claim's key (lowercase hex digits, zero-padded to eight) differs. -/
theorem C9_format_label_preserves_case :
    format_label "0x1A" = "0x0000001A"
    ∧ claimBlockKey "0x1A" = "0x0000001a"
    ∧ format_label "0x1A" ≠ claimBlockKey "0x1A" := by
  refine ⟨by decide, by decide, by decide⟩

/-- C9 as amended: for address strings whose part after an optional `0x`
prefix is already lowercase (and carries no sign character), the block key
equals `0x` followed by those digits left-padded with zeros to eight — the
claim's shape; case is preserved rather than forced to lowercase. -/
theorem C9_format_label_lowercase_addresses (s : String)
    (hlower : lowerStr (if strTake s 2 = "0x" then strDrop s 2 else s)
        = (if strTake s 2 = "0x" then strDrop s 2 else s))
    (hsign : startsWithSign (if strTake s 2 = "0x" then strDrop s 2 else s) = false) :
    format_label s = claimBlockKey s := by
  unfold format_label claimBlockKey
  set t := if strTake s 2 = "0x" then strDrop s 2 else s with ht
  show "0x" ++ zfill t 8 = "0x" ++ (⟨padZeroL 8 (lowerStr t).data⟩ : String)
  rw [hlower]
  congr 1
  cases hd : t.data with
  | nil => simp [zfill, hd]
  | cons c cs =>
    have hsign2 : ¬ (c = '-' ∨ c = '+') := by
      have hx := hsign
      unfold startsWithSign at hx
      rw [hd] at hx
      simpa using hx
    simp [zfill, hd, hsign2]

/-- Witness for C9 as amended at the lowercase address `0x2f`. -/
theorem C9_format_label_witness : format_label "0x2f" = claimBlockKey "0x2f" :=
  C9_format_label_lowercase_addresses "0x2f" (by decide) (by decide)

/-- The input resolver is total on symbols free of `argc` / `argv`: every
branch of the cascade returns a value; the Python function never returns
`None`. -/
theorem fetch_input_total (ctx : FnCtx) (b : Builder) (arg : Varnode) (temps : Temps)
    (hav : strContains (strippedSymbol arg.symbol) "argv" = false)
    (hac : strContains (strippedSymbol arg.symbol) "argc" = false) :
    ∃ r b1, fetch_input ctx b arg temps = some (some r, b1) := by
  simp only [fetch_input, hav, hac]
  repeat' split
  all_goals simp_all

/-- Collecting CALL arguments over `argc`/`argv`-free inputs never drops
one: the filter sees no `None` and the argument list is as long as the
input list. -/
theorem collectCallArgs_total (ctx : FnCtx) (temps : Temps) :
    ∀ (inputsTail : List Varnode) (b : Builder),
    (∀ v ∈ inputsTail, strContains (strippedSymbol v.symbol) "argv" = false
      ∧ strContains (strippedSymbol v.symbol) "argc" = false) →
    ∃ args b1, collectCallArgs ctx temps b inputsTail = some (args, b1)
      ∧ args.length = inputsTail.length := by
  intro l
  induction l with
  | nil =>
    intro b _
    exact ⟨[], b, rfl, rfl⟩
  | cons v rest ih =>
    intro b hsafe
    obtain ⟨r, b1, hr⟩ :=
      fetch_input_total ctx b v temps (hsafe v (by simp)).1 (hsafe v (by simp)).2
    obtain ⟨args, b2, hc, hlen⟩ := ih b1 (fun w hw => hsafe w (by simp [hw]))
    refine ⟨r :: args, b2, ?_, by simp [hlen]⟩
    simp only [collectCallArgs, hr, hc]

/-- C10: input resolution is total on non-fatal symbols (never the `None`
sentinel), so a CALL whose inputs are `argc`/`argv`-free and whose
non-instrumentation callee has at least one declared parameter receives
exactly one argument per remaining input. -/
theorem C10_fetch_total_call_arity (ctx : FnCtx) (sigs : FuncSigs)
    (m : ModuleSt) (b : Builder) (temps : Temps) (inputsTail : List Varnode)
    (callee : String) (k : Nat) (retTy : IRType)
    (hsafe : ∀ v ∈ inputsTail, strContains (strippedSymbol v.symbol) "argv" = false
      ∧ strContains (strippedSymbol v.symbol) "argc" = false)
    (hni : instrumentationList.contains callee = false)
    (hsig : alookup sigs callee = some (k + 1, retTy)) :
    (∀ (b2 : Builder) (v : Varnode),
        strContains (strippedSymbol v.symbol) "argv" = false →
        strContains (strippedSymbol v.symbol) "argc" = false →
        ∃ r b3, fetch_input ctx b2 v temps = some (some r, b3))
    ∧ ∃ args b1, collectCallArgs ctx temps b inputsTail = some (args, b1)
        ∧ args.length = inputsTail.length
        ∧ liftCallArm ctx sigs m b callee inputsTail none temps
            = some (m, ⟨b1.nextId + 1, b1.instrs
                ++ [Instr.call callee args (IRValue.instr b1.nextId retTy)]⟩, temps) := by
  refine ⟨fun b2 v h1 h2 => fetch_input_total ctx b2 v temps h1 h2, ?_⟩
  obtain ⟨args, b1, hc, hlen⟩ := collectCallArgs_total ctx temps inputsTail b hsafe
  refine ⟨args, b1, hc, hlen, ?_⟩
  simp [liftCallArm, hc, hni, hsig, Builder.emit]
  intro hmem
  exact absurd hmem (by simpa using hni)

/-- Witness for C10: a call to `foo` (one declared parameter) with the
single constant input `5`. -/
theorem C10_fetch_total_call_witness :
    ∃ args b1, collectCallArgs ⟨[], [], []⟩ [] ⟨0, []⟩ [⟨"5", 4, none, none⟩]
        = some (args, b1)
      ∧ args.length = 1
      ∧ liftCallArm ⟨[], [], []⟩ [("foo", (1, IRType.int 32))] ⟨[], []⟩ ⟨0, []⟩ "foo"
          [⟨"5", 4, none, none⟩] none []
          = some (⟨[], []⟩, ⟨b1.nextId + 1, b1.instrs
              ++ [Instr.call "foo" args (IRValue.instr b1.nextId (IRType.int 32))]⟩, []) :=
  (C10_fetch_total_call_arity ⟨[], [], []⟩ [("foo", (1, IRType.int 32))] ⟨[], []⟩ ⟨0, []⟩ []
    [⟨"5", 4, none, none⟩] "foo" 0 (IRType.int 32) (by decide) (by decide) rfl).2

end Ghidrall
